import Mathlib

/-!
Verification of the Rutube_Pilot repository's proxy-pool and cycle-controller
subsystem.  The Python sources are shallowly embedded: strings are `List Char`,
Python `int` is `Int` (`Nat` where the source guarantees non-negativity),
network and browser effects are abstracted into explicit outcome parameters,
and the `while True` loops are given explicit fuel.  Each definition mirrors
one function of the source files `rutube_pro.py`, `Proxy/rutube_viewer_proxy.py`,
`rutube_viewer_cycles.py` and `rutube_viewer3.py`.
-/

namespace PyStr


/-- Model of Python's `str.split(sep)` for a one-character separator:
splits on every occurrence, keeping empty pieces (`"".split(sep) == ['']`). -/
def splitOnChar (sep : Char) : List Char → List (List Char)
  | [] => [[]]
  | c :: cs =>
    if c = sep then [] :: splitOnChar sep cs
    else
      match splitOnChar sep cs with
      | [] => [[c]]
      | p :: ps => (c :: p) :: ps

/-- Whitespace characters removed by Python's `str.strip()` (space, tab,
newline, carriage return, vertical tab, form feed). -/
def isSpaceChar (c : Char) : Bool :=
  c.toNat = 32 ∨ c.toNat = 9 ∨ c.toNat = 10 ∨ c.toNat = 13 ∨ c.toNat = 11 ∨ c.toNat = 12

/-- Model of Python's `str.strip()`: drop whitespace from both ends. -/
def stripChars (cs : List Char) : List Char :=
  ((cs.dropWhile isSpaceChar).reverse.dropWhile isSpaceChar).reverse

/-- Model of Python's `needle in haystack` substring test: `leadsWith n h`
holds when `n` is an initial segment of `h`. -/
def leadsWith : List Char → List Char → Bool
  | [], _ => true
  | _ :: _, [] => false
  | a :: as, b :: bs => a = b && leadsWith as bs

/-- Model of Python's `needle in haystack` substring containment. -/
def hasSub (needle : List Char) : List Char → Bool
  | [] => leadsWith needle []
  | c :: cs => leadsWith needle (c :: cs) || hasSub needle cs

/-- Decimal digit characters `'0'`–`'9'`. -/
def isDigitChar (c : Char) : Bool := 48 ≤ c.toNat && c.toNat ≤ 57

/-- Numeric value of a decimal digit character. -/
def digitVal (c : Char) : Nat := c.toNat - 48

/-- Decimal digit character of a digit value. -/
def digitChar (d : Nat) : Char := Char.ofNat (48 + d)

/-- Model of the digits part of Python's `int(str)`: a non-empty all-digit
string evaluates by the usual left fold, anything else raises `ValueError`
(`none`). -/
def parseNat? (cs : List Char) : Option Nat :=
  if cs = [] then none
  else if cs.all isDigitChar then
    some (cs.foldl (fun a c => 10 * a + digitVal c) 0)
  else none

/-- Model of Python's `int(str)`: surrounding whitespace is tolerated and an
optional single leading sign is allowed. -/
def parseInt? (cs : List Char) : Option Int :=
  let cs := stripChars cs
  match cs with
  | [] => none
  | c :: rest =>
    if c = '-' then (parseNat? rest).map (fun n => -(n : Int))
    else if c = '+' then (parseNat? rest).map (fun n => (n : Int))
    else (parseNat? (c :: rest)).map (fun n => (n : Int))

/-- Model of Python's `str(n)` for a non-negative integer: its decimal digit
string, most significant digit first. -/
def natToChars (n : Nat) : List Char :=
  if n = 0 then ['0'] else ((Nat.digits 10 n).map digitChar).reverse
end PyStr


namespace Viewer3

open PyStr



/-- Result of `TimeParser.parse_time_input` (rutube_viewer3.py, lines 94-139):
either a fixed duration or a `(min, max)` interval. -/
inductive TimeSpec where
  | fixed (t : Int)
  | range (lo hi : Int)
deriving DecidableEq

/-- One iteration of the `for sep in separators` loop of `parse_time_input`:
when `sep` occurs in the input and splitting yields exactly two parts, the
parts are parsed as integers and validated (raising `ValueError`, modelled as
`Except.error`, on a parse failure, a negative minimum, or `max < min`);
when `sep` is absent or the split does not have two parts the loop continues
(`none`). -/
def tryRangeSep (sep : Char) (cs : List Char) : Option (Except String TimeSpec) :=
  if sep ∈ cs then
    match splitOnChar sep cs with
    | [p1, p2] =>
      some (match parseInt? (stripChars p1), parseInt? (stripChars p2) with
        | some mn, some mx =>
          if mn < 0 then Except.error "min time must be nonnegative"
          else if mx < mn then Except.error "max time must be at least min time"
          else Except.ok (TimeSpec.range mn mx)
        | _, _ => Except.error "invalid interval format")
    | _ => none
  else none

/-- Embedding of `TimeParser.parse_time_input`: an empty input yields the
default; otherwise separators `'-'` then `':'` are tried for an interval, and
finally the whole input is parsed as a single non-negative integer. -/
def parse_time_input (cs : List Char) (dflt : Int) : Except String TimeSpec :=
  if cs.isEmpty then Except.ok (TimeSpec.fixed dflt)
  else
    match tryRangeSep '-' cs with
    | some r => r
    | none =>
      match tryRangeSep ':' cs with
      | some r => r
      | none =>
        match parseInt? cs with
        | some v =>
          if v < 0 then Except.error "time must be nonnegative"
          else Except.ok (TimeSpec.fixed v)
        | none => Except.error "invalid time format"

/-- Model of Python's `random.randint(lo, hi)`: the uniform draw is indexed by
an external random seed `r`; for `lo ≤ hi` the value `lo + (r % (hi-lo+1))`
ranges uniformly over `[lo, hi]` as `r` ranges uniformly over residues. -/
def randintModel (lo hi : Int) (r : Nat) : Int :=
  lo + ((r % (hi - lo + 1).toNat : Nat) : Int)

/-- Embedding of `TimeParser.get_random_time` (rutube_viewer3.py, lines
141-158): a fixed spec is returned as is; an interval with equal endpoints
returns that endpoint, otherwise `random.randint(min, max)` is drawn. -/
def get_random_time (spec : TimeSpec) (r : Nat) : Int :=
  match spec with
  | TimeSpec.fixed t => t
  | TimeSpec.range lo hi => if lo = hi then lo else randintModel lo hi r
end Viewer3


namespace RutubePro


/-- Pool state of `ProxyManager` (rutube_pro.py): the list of proxies that
validated successfully and the list of proxies marked failed.  Addresses are
`host:port` strings. -/
structure PoolState where
  working_proxies : List (List Char)
  failed_proxies : List (List Char)
deriving DecidableEq

/-- Embedding of `ProxyManager.mark_proxy_failed` (rutube_pro.py, lines
214-224): when the address is in the working list, remove its first occurrence
(`list.remove`) and append it to the failed list; otherwise do nothing. -/
def mark_proxy_failed (s : PoolState) (p : List Char) : PoolState :=
  if p ∈ s.working_proxies then
    { working_proxies := s.working_proxies.erase p,
      failed_proxies := s.failed_proxies ++ [p] }
  else s
end RutubePro



/-- The line-extraction expression shared by both `fetch_proxies` variants:
`[p.strip() for p in text.split('\n') if p.strip()]`. -/
def parseProxyLines (body : List Char) : List (List Char) :=
  ((PyStr.splitOnChar '\n' body).map PyStr.stripChars).filter (fun l => ¬ l.isEmpty)

/-- The `for proxy_list in results: all_proxies.extend(proxy_list)` loop of
`rutube_pro.py` (lines 100-102): extending by `None` raises `TypeError`
(`none`), which aborts the whole fetch. -/
def extendAll {α : Type} : List (Option (List α)) → Option (List α)
  | [] => some []
  | none :: _ => none
  | some l :: rest => (extendAll rest).map (fun acc => l ++ acc)
namespace RutubePro


/-- Observable behaviour of one proxy source as seen by
`rutube_pro.py`'s `fetch_source` (lines 84-95): the HTTP request either
returns a response with some status and body, or raises (network error,
timeout, malformed URL). -/
inductive ProSource where
  | ok (status : Nat) (body : List Char)
  | exc
deriving DecidableEq

/-- Embedding of the inner `fetch_source` of `rutube_pro.py` (lines 84-95):
status 200 yields the parsed line list; any exception is swallowed and yields
`[]`; a non-200 response falls off the end of the function and yields `None`
(`none`). -/
def fetch_source (o : ProSource) : Option (List (List Char)) :=
  match o with
  | ProSource.ok s body => if s = 200 then some (parseProxyLines body) else none
  | ProSource.exc => some []

/-- Python exceptions that can escape `fetch_proxies`. -/
inductive PyError where
  | typeError
deriving DecidableEq

/-- Embedding of `ProxyManager.fetch_proxies` of `rutube_pro.py` (lines
71-111): gather per-source results, concatenate them (raising `TypeError` on
a `None` entry), deduplicate (`list(set(...))`, modelled as `List.dedup` — the
set enumeration order is unspecified in Python) and truncate to
`max_proxies`. -/
def fetch_proxies (max_proxies : Nat) (outs : List ProSource) :
    Except PyError (List (List Char)) :=
  match extendAll (outs.map fetch_source) with
  | none => Except.error PyError.typeError
  | some all => Except.ok (all.dedup.take max_proxies)
end RutubePro


namespace ProxyViewer


/-- Observable behaviour of one proxy source as seen by
`Proxy/rutube_viewer_proxy.py`'s `fetch_source` (lines 76-94): an HTTP source
returns a status and body or raises; a local-file source exists with some
content or is missing. -/
inductive PvSource where
  | http (status : Nat) (body : List Char)
  | httpExc
  | fileFound (body : List Char)
  | fileMissing
deriving DecidableEq

/-- Embedding of the inner `fetch_source` of `Proxy/rutube_viewer_proxy.py`
(lines 76-94): status 200 and an existing file yield parsed lines, an
exception yields `[]`, and a non-200 response or a missing file falls off the
end and yields `None` (`none`). -/
def fetch_source (o : PvSource) : Option (List (List Char)) :=
  match o with
  | PvSource.http s body => if s = 200 then some (parseProxyLines body) else none
  | PvSource.httpExc => some []
  | PvSource.fileFound body => some (parseProxyLines body)
  | PvSource.fileMissing => none

/-- The guarded accumulation loop of `Proxy/rutube_viewer_proxy.py` (lines
99-102): `if proxy_list:` skips both `None` and empty results, so no source
outcome can abort the batch. -/
def gatherResults (rs : List (Option (List (List Char)))) : List (List Char) :=
  rs.foldr
    (fun r acc =>
      match r with
      | some l => if l.isEmpty then acc else l ++ acc
      | none => acc)
    []

/-- Embedding of `ProxyManager.fetch_proxies` of `Proxy/rutube_viewer_proxy.py`
(lines 65-107): gather, skip falsy per-source results, deduplicate and
truncate to `max_proxies`.  Always returns normally. -/
def fetch_proxies (max_proxies : Nat) (outs : List PvSource) : List (List Char) :=
  (gatherResults (outs.map fetch_source)).dedup.take max_proxies
end ProxyViewer


namespace ProxyViewer


/-- Observable behaviour of one probe endpoint inside `test_proxy` of
`Proxy/rutube_viewer_proxy.py` (lines 109-139): the request through the proxy
raises, or returns a non-200 status, or returns 200 and its JSON body yields a
truthy `origin`/`ip` value, or parses as JSON without one, or fails to parse
as JSON while the raw text does (or does not) mention `origin`/`ip`. -/
inductive ProbeRes where
  | exc
  | badStatus
  | jsonWithIp (ip : List Char)
  | jsonNoIp
  | textMentionsIp
  | textNoIp
deriving DecidableEq

/-- The per-endpoint `return` decision of `test_proxy`: a 200 response with a
truthy JSON ip returns `(proxy, ip)`, a 200 response whose text mentions
`origin`/`ip` returns `(proxy, None)`; every other outcome continues to the
next endpoint. -/
def probeHit : ProbeRes → Option (Option (List Char))
  | ProbeRes.jsonWithIp ip => some (some ip)
  | ProbeRes.textMentionsIp => some none
  | _ => none

/-- Embedding of `ProxyManager.test_proxy` of `Proxy/rutube_viewer_proxy.py`
(lines 109-139): iterate over the test endpoints and return at the first
success; `None` when every endpoint fails. -/
def test_proxy (rs : List ProbeRes) (p : List Char) :
    Option (List Char × Option (List Char)) :=
  match rs with
  | [] => none
  | r :: rest =>
    match probeHit r with
    | some ip => some (p, ip)
    | none => test_proxy rest p

/-- Embedding of `ProxyManager.validate_proxies` of
`Proxy/rutube_viewer_proxy.py` (lines 141-164):
`working_proxies = [result[0] for result in results if result]` where
`results` tests every candidate.  `env` gives each candidate's endpoint
behaviours. -/
def validate_proxies (env : List Char → List ProbeRes)
    (proxies : List (List Char)) : List (List Char) :=
  proxies.filterMap (fun p => (test_proxy (env p) p).map Prod.fst)
end ProxyViewer


namespace RutubePro


/-- Observable behaviour of one probe endpoint inside `test_proxy` of
`rutube_pro.py` (lines 113-165): the request raises, returns a non-200
status, returns 200 with a truthy extracted ip (and a measured response
time), or returns 200 without one. -/
inductive ProProbe where
  | exc
  | badStatus
  | okIp (ip : List Char) (rt : Nat)
  | okNoIp
deriving DecidableEq

/-- Whether a probe outcome makes `test_proxy` return. -/
def probeWorks : ProProbe → Bool
  | ProProbe.okIp _ _ => true
  | _ => false

/-- The record built by `test_proxy` of `rutube_pro.py` on success (lines
151-157), restricted to the fields the pool logic reads. -/
structure TestResult where
  proxy : List Char
  ip : List Char
  response_time : Nat
deriving DecidableEq

/-- Embedding of `ProxyManager.test_proxy` of `rutube_pro.py` (lines 113-165):
return the result record at the first endpoint that yields a truthy ip,
`None` otherwise. -/
def test_proxy (rs : List ProProbe) (p : List Char) : Option TestResult :=
  match rs with
  | [] => none
  | ProProbe.okIp ip rt :: _ => some ⟨p, ip, rt⟩
  | _ :: rest => test_proxy rest p

/-- Embedding of `ProxyManager.validate_proxies` of `rutube_pro.py` (lines
167-198): test every candidate, keep the successful result records, sort them
by ascending response time (`working_details.sort(key=...)`, modelled by a
stable structural sort) and read off the proxies. -/
def validate_proxies (env : List Char → List ProProbe)
    (proxies : List (List Char)) : List (List Char) :=
  let results := proxies.map (fun p => test_proxy (env p) p)
  let working_details := results.filterMap id
  let sorted := List.insertionSort
    (fun x y : TestResult => x.response_time ≤ y.response_time) working_details
  sorted.map TestResult.proxy
end RutubePro



/-- Termination mode of a cycle-controller run: the configured cycle count was
exhausted, the user interrupted, the browser driver could not be recreated, or
the modelling fuel ran out (the Python loop would still be running). -/
inductive RunOutcome where
  | finished
  | interrupted
  | driverFail
  | fuelOut
deriving DecidableEq
namespace ViewerCycles


/-- Outcome of one `watch_video` attempt in `rutube_viewer_cycles.py` (lines
262-361) as seen from the outside: the watch completes, the page load times
out (`except TimeoutException`), some other exception occurs (`except
Exception`), or the user interrupts (`KeyboardInterrupt`, which none of the
handlers catch). -/
inductive AttemptOutcome where
  | completes
  | timesOut
  | fails
  | interrupt
deriving DecidableEq

/-- Embedding of `RuTubeViewer.watch_video`: a completed watch returns `True`,
a timeout or any other exception is caught and returns `False`, and a user
interrupt propagates (`none`). -/
def watch_video : AttemptOutcome → Option Bool
  | AttemptOutcome.completes => some true
  | AttemptOutcome.timesOut => some false
  | AttemptOutcome.fails => some false
  | AttemptOutcome.interrupt => none

/-- One entry of `stats['videos_history']` (lines 398-405). -/
structure VideoStat where
  url : List Char
  watch_time : Nat
  success : Bool
  cycle : Nat
deriving DecidableEq

/-- The `stats` dictionary of `rutube_viewer_cycles.py` (lines 30-43),
restricted to the counter fields. -/
structure ViewerStats where
  total_videos : Nat
  successful_views : Nat
  failed_views : Nat
  total_watch_time : Nat
  videos_history : List VideoStat
  cycles_completed : Nat
deriving DecidableEq

/-- The URL check of `process_videos` (line 383):
`"rutube.ru" not in video_url and "rutube.pl" not in video_url` rejects. -/
def isRutubeUrl (u : List Char) : Bool :=
  PyStr.hasSub "rutube.ru".data u || PyStr.hasSub "rutube.pl".data u

/-- The list preprocessing of `process_videos` (lines 366-372): an optional
shuffle (`random.shuffle`, modelled by an arbitrary external permutation) and
an optional truncation; `if max_videos:` is Python-falsy for `0`. -/
def effectiveUrls (perm : List (List Char) → List (List Char)) (shuffle : Bool)
    (maxVideos : Option Nat) (urls : List (List Char)) : List (List Char) :=
  let u := if shuffle then perm urls else urls
  match maxVideos with
  | some m => if m = 0 then u else u.take m
  | none => u

/-- The per-URL loop of `RuTubeViewer.process_videos` (lines 377-416): a
non-RuTube URL only bumps `failed_views`; otherwise the video is watched, a
history entry is appended and exactly one of the outcome counters is bumped;
an interrupt propagates immediately (second component `true`). -/
def process_videos_go (attempt : List Char → AttemptOutcome) (watch_time : Nat) :
    List (List Char) → ViewerStats → ViewerStats × Bool
  | [], s => (s, false)
  | u :: rest, s =>
    if isRutubeUrl u = false then
      process_videos_go attempt watch_time rest
        { s with failed_views := s.failed_views + 1 }
    else
      match watch_video (attempt u) with
      | none => (s, true)
      | some success =>
        process_videos_go attempt watch_time rest
          (if success then
            { s with
              videos_history :=
                s.videos_history ++ [⟨u, watch_time, success, s.cycles_completed + 1⟩],
              successful_views := s.successful_views + 1,
              total_watch_time := s.total_watch_time + watch_time }
          else
            { s with
              videos_history :=
                s.videos_history ++ [⟨u, watch_time, success, s.cycles_completed + 1⟩],
              failed_views := s.failed_views + 1 })

/-- Embedding of `RuTubeViewer.process_videos` (lines 363-416): preprocess the
list, count it into `total_videos`, then run the per-URL loop. -/
def process_videos (attempt : List Char → AttemptOutcome)
    (perm : List (List Char) → List (List Char)) (urls : List (List Char))
    (watch_time : Nat) (shuffle : Bool) (maxVideos : Option Nat)
    (s : ViewerStats) : ViewerStats × Bool :=
  process_videos_go attempt watch_time (effectiveUrls perm shuffle maxVideos urls)
    { s with
      total_videos := s.total_videos + (effectiveUrls perm shuffle maxVideos urls).length }

/-- External behaviour surrounding one run of `run_cycles`: per-cycle per-URL
watch outcomes, per-cycle driver recreation success, and per-cycle shuffle
permutations. -/
structure CycleEnv where
  attempt : Nat → List Char → AttemptOutcome
  driverOk : Nat → Bool
  perm : Nat → List (List Char) → List (List Char)

/-- Embedding of the `while True` loop of `RuTubeViewer.run_cycles`
(rutube_viewer_cycles.py, lines 471-512), with explicit fuel: each iteration
bumps `cycles_completed`, processes the video list, breaks once
`cycles > 0 and cycle_count >= cycles`, and otherwise recreates the driver
(breaking on failure) before the next iteration.  An interrupt inside
processing reaches the `except KeyboardInterrupt` handler of `run_cycles`. -/
def run_cycles_go (env : CycleEnv) (urls : List (List Char)) (watch_time : Nat)
    (shuffle : Bool) (maxVideos : Option Nat) (cycles : Int) (cycleCount : Nat)
    (s : ViewerStats) : Nat → RunOutcome × ViewerStats
  | 0 => (RunOutcome.fuelOut, s)
  | fuel + 1 =>
    match process_videos (env.attempt (cycleCount + 1)) (env.perm (cycleCount + 1))
        urls watch_time shuffle maxVideos
        { s with cycles_completed := s.cycles_completed + 1 } with
    | (s2, intr) =>
      if intr then (RunOutcome.interrupted, s2)
      else if 0 < cycles ∧ cycles ≤ ((cycleCount + 1 : Nat) : Int) then
        (RunOutcome.finished, s2)
      else if cycles = 0 ∨ ((cycleCount + 1 : Nat) : Int) < cycles then
        if env.driverOk (cycleCount + 1) then
          run_cycles_go env urls watch_time shuffle maxVideos cycles (cycleCount + 1) s2 fuel
        else (RunOutcome.driverFail, s2)
      else
        run_cycles_go env urls watch_time shuffle maxVideos cycles (cycleCount + 1) s2 fuel

/-- Embedding of `RuTubeViewer.run_cycles` (lines 454-521) from a fresh
`cycle_count = 0`. -/
def run_cycles (env : CycleEnv) (urls : List (List Char)) (watch_time : Nat)
    (shuffle : Bool) (maxVideos : Option Nat) (cycles : Int) (s : ViewerStats)
    (fuel : Nat) : RunOutcome × ViewerStats :=
  run_cycles_go env urls watch_time shuffle maxVideos cycles 0 s fuel
end ViewerCycles


namespace RutubePro


/-- External behaviour of one `run_cycle` invocation of `rutube_pro.py`
(lines 870-902): it returns a boolean (driver creation or processing failures
are caught inside and yield `False`), or a user interrupt escapes (`none`). -/
structure ProCycleEnv where
  runCycleResult : Nat → Option Bool

/-- Embedding of the `while True` loop of `RuTubeViewerPro.run_cycles_async`
(rutube_pro.py, lines 927-958), with explicit fuel: each iteration runs
`run_cycle` (an unsuccessful cycle is merely logged; the loop continues) and
breaks once `cycles > 0 and cycle_count >= cycles`.  The second component
counts completed `run_cycle` invocations. -/
def run_cycles_async_go (env : ProCycleEnv) (cycles : Int) (cycleCount : Nat)
    (processed : Nat) : Nat → RunOutcome × Nat
  | 0 => (RunOutcome.fuelOut, processed)
  | fuel + 1 =>
    match env.runCycleResult (cycleCount + 1) with
    | none => (RunOutcome.interrupted, processed)
    | some _ =>
      if 0 < cycles ∧ cycles ≤ ((cycleCount + 1 : Nat) : Int) then
        (RunOutcome.finished, processed + 1)
      else run_cycles_async_go env cycles (cycleCount + 1) (processed + 1) fuel

/-- Embedding of `RuTubeViewerPro.run_cycles_async` (lines 904-967) from a
fresh `cycle_count = 0`. -/
def run_cycles_async (env : ProCycleEnv) (cycles : Int) (fuel : Nat) :
    RunOutcome × Nat :=
  run_cycles_async_go env cycles 0 0 fuel
end RutubePro


namespace ViewerCycles


/-- Whether the loop records a given URL as a success: it must be a RuTube URL
and its watch attempt must complete. -/
def recordedSuccess (attempt : List Char → AttemptOutcome) (u : List Char) : Bool :=
  isRutubeUrl u && (attempt u == AttemptOutcome.completes)
end ViewerCycles


namespace ViewerCycles

end ViewerCycles


namespace RutubePro

end RutubePro


namespace ProxyViewer


/-- Observable outcome of one client-method call inside
`RutubeBot.process_video` (Proxy/rutube_viewer_proxy.py, lines 467-523): the
call returns a value, raises an `Exception` (caught by the `except Exception`
handler), or raises a user interrupt (uncaught, but the `finally` block still
runs). -/
inductive StageRes where
  | ret (b : Bool)
  | raiseExc
  | interrupt
deriving DecidableEq

/-- Behaviour of the four client calls made by one `process_video` attempt:
`open_video`, `get_video_info`, `play_video` and `watch_video` (the returned
values of the middle two are not inspected). -/
structure VisitBehavior where
  openRes : StageRes
  infoRes : StageRes
  playRes : StageRes
  watchRes : StageRes

/-- The `stats` dictionary of `RutubeBot.__init__` (lines 449-455), restricted
to the counter fields. -/
structure BotStats where
  total_visits : Nat
  successful_visits : Nat
  failed_visits : Nat
  proxies_used : List (List Char)
deriving DecidableEq

/-- State of one `RutubeClient`, tracking how often `close()` (lines 426-433)
has been invoked on it. -/
structure ClientState where
  closeCalls : Nat
deriving DecidableEq

/-- Embedding of `RutubeClient.close`: one more `close()` call. -/
def close (c : ClientState) : ClientState := { closeCalls := c.closeCalls + 1 }

/-- Embedding of `RutubeBot.process_video` (lines 467-523).  The client is
constructed first; then `open_video` — a `False` return exits early with no
counter change; then `get_video_info`, `play_video` (results unused) and
`watch_video`, whose boolean decides which outcome counter is bumped before
`total_visits`, and the proxy, if any, is appended to `proxies_used`.  Any
`Exception` from a stage reaches the `except Exception` handler, which bumps
`failed_visits` and `total_visits` and returns `False`; a user interrupt
(`none`) propagates.  On every one of these exit paths the `finally` block
calls `close()` on the client exactly once. -/
def process_video (b : VisitBehavior) (proxy : Option (List Char)) (s : BotStats)
    (cl : ClientState) : Option Bool × BotStats × ClientState :=
  match b.openRes with
  | StageRes.interrupt => (none, s, close cl)
  | StageRes.raiseExc =>
    (some false,
      { s with failed_visits := s.failed_visits + 1, total_visits := s.total_visits + 1 },
      close cl)
  | StageRes.ret false => (some false, s, close cl)
  | StageRes.ret true =>
    match b.infoRes with
    | StageRes.interrupt => (none, s, close cl)
    | StageRes.raiseExc =>
      (some false,
        { s with failed_visits := s.failed_visits + 1, total_visits := s.total_visits + 1 },
        close cl)
    | StageRes.ret _ =>
      match b.playRes with
      | StageRes.interrupt => (none, s, close cl)
      | StageRes.raiseExc =>
        (some false,
          { s with failed_visits := s.failed_visits + 1, total_visits := s.total_visits + 1 },
          close cl)
      | StageRes.ret _ =>
        match b.watchRes with
        | StageRes.interrupt => (none, s, close cl)
        | StageRes.raiseExc =>
          (some false,
            { s with failed_visits := s.failed_visits + 1, total_visits := s.total_visits + 1 },
            close cl)
        | StageRes.ret success =>
          (some success,
            (if success then
              { s with
                successful_visits := s.successful_visits + 1,
                total_visits := s.total_visits + 1,
                proxies_used := s.proxies_used ++
                  (match proxy with | some p => [p] | none => []) }
            else
              { s with
                failed_visits := s.failed_visits + 1,
                total_visits := s.total_visits + 1,
                proxies_used := s.proxies_used ++
                  (match proxy with | some p => [p] | none => []) }),
            close cl)
end ProxyViewer



/-- A benign cycle environment: every watch completes, the driver always
recreates, shuffling leaves the list as is. -/
def benignCycleEnv : ViewerCycles.CycleEnv :=
  ⟨fun _ _ => ViewerCycles.AttemptOutcome.completes, fun _ => true, fun _ l => l⟩

/-- A benign environment for the pro loop: every `run_cycle` returns `True`. -/
def benignProCycleEnv : RutubePro.ProCycleEnv := ⟨fun _ => some true⟩

/-- Fresh viewer statistics. -/
def freshViewerStats : ViewerCycles.ViewerStats := ⟨0, 0, 0, 0, [], 0⟩

/-- An attempt environment whose first URL fails and whose others complete. -/
def oneFailAttempt : List Char → ViewerCycles.AttemptOutcome := fun u =>
  if u = "https://rutube.ru/video/aaa/".data then ViewerCycles.AttemptOutcome.fails
  else ViewerCycles.AttemptOutcome.completes

namespace PyStr

theorem digitVal_digitChar {d : Nat} (hd : d < 10) : digitVal (digitChar d) = d := by
  interval_cases d <;> decide

theorem isDigitChar_digitChar {d : Nat} (hd : d < 10) : isDigitChar (digitChar d) = true := by
  interval_cases d <;> decide

theorem isDigitChar_not_space {c : Char} (h : isDigitChar c = true) : isSpaceChar c = false := by
  simp only [isDigitChar, Bool.and_eq_true, decide_eq_true_eq] at h
  simp only [isSpaceChar, decide_eq_false_iff_not]
  omega

theorem isDigitChar_ne_dash {c : Char} (h : isDigitChar c = true) : c ≠ '-' := by
  intro hc
  subst hc
  simp [isDigitChar] at h

theorem isDigitChar_ne_colon {c : Char} (h : isDigitChar c = true) : c ≠ ':' := by
  intro hc
  subst hc
  simp [isDigitChar] at h

theorem isDigitChar_ne_plus {c : Char} (h : isDigitChar c = true) : c ≠ '+' := by
  intro hc
  subst hc
  simp [isDigitChar] at h

theorem natToChars_ne_nil (n : Nat) : natToChars n ≠ [] := by
  unfold natToChars
  by_cases h : n = 0
  · simp [h]
  · simp only [h, if_false, ne_eq, List.reverse_eq_nil_iff, List.map_eq_nil_iff]
    exact Nat.digits_ne_nil_iff_ne_zero.mpr h

theorem natToChars_all_digits (n : Nat) : ∀ c ∈ natToChars n, isDigitChar c = true := by
  intro c hc
  unfold natToChars at hc
  by_cases h : n = 0
  · simp [h] at hc
    subst hc
    decide
  · simp only [h, if_false, List.mem_reverse, List.mem_map] at hc
    obtain ⟨d, hd, rfl⟩ := hc
    exact isDigitChar_digitChar (Nat.digits_lt_base (by norm_num) hd)

theorem dropWhile_eq_self_of_all {p : Char → Bool} {cs : List Char}
    (h : ∀ c ∈ cs, p c = false) : cs.dropWhile p = cs := by
  cases cs with
  | nil => rfl
  | cons c cs =>
    rw [List.dropWhile_cons_of_neg]
    simp [h c (by simp)]

theorem stripChars_eq_self_of_digits {cs : List Char}
    (h : ∀ c ∈ cs, isDigitChar c = true) : stripChars cs = cs := by
  unfold stripChars
  rw [dropWhile_eq_self_of_all (fun c hc => isDigitChar_not_space (h c hc))]
  rw [dropWhile_eq_self_of_all (fun c hc => isDigitChar_not_space (h c (List.mem_reverse.mp hc)))]
  exact List.reverse_reverse cs

theorem foldl_digitChars (L : List Nat) (hL : ∀ d ∈ L, d < 10) :
    ((L.map digitChar).reverse).foldl (fun a c => 10 * a + digitVal c) 0 =
      Nat.ofDigits 10 L := by
  induction L with
  | nil => simp [Nat.ofDigits]
  | cons d L ih =>
    have hd : d < 10 := hL d (by simp)
    have hL2 : ∀ x ∈ L, x < 10 := fun x hx => hL x (by simp [hx])
    simp only [List.map_cons, List.reverse_cons, List.foldl_append, List.foldl_cons,
      List.foldl_nil]
    rw [ih hL2, digitVal_digitChar hd, Nat.ofDigits_cons]
    ring

theorem parseNat?_natToChars (n : Nat) : parseNat? (natToChars n) = some n := by
  by_cases h : n = 0
  · subst h; decide
  · unfold parseNat?
    rw [if_neg (natToChars_ne_nil n)]
    rw [if_pos (List.all_eq_true.mpr (natToChars_all_digits n))]
    unfold natToChars
    rw [if_neg h, foldl_digitChars _ (fun d hd => Nat.digits_lt_base (by norm_num) hd)]
    rw [Nat.ofDigits_digits]

theorem parseInt?_natToChars (n : Nat) : parseInt? (natToChars n) = some (n : Int) := by
  unfold parseInt?
  rw [stripChars_eq_self_of_digits (natToChars_all_digits n)]
  obtain ⟨c, rest, hc⟩ : ∃ c rest, natToChars n = c :: rest := by
    cases hcs : natToChars n with
    | nil => exact absurd hcs (natToChars_ne_nil n)
    | cons c rest => exact ⟨c, rest, rfl⟩
  have hdig : isDigitChar c = true := natToChars_all_digits n c (by rw [hc]; simp)
  rw [hc]
  simp only [if_neg (isDigitChar_ne_dash hdig), if_neg (isDigitChar_ne_plus hdig)]
  rw [← hc, parseNat?_natToChars]
  rfl

theorem natToChars_not_mem_dash (n : Nat) : '-' ∉ natToChars n := by
  intro h
  exact isDigitChar_ne_dash (natToChars_all_digits n _ h) rfl

theorem natToChars_not_mem_colon (n : Nat) : ':' ∉ natToChars n := by
  intro h
  exact isDigitChar_ne_colon (natToChars_all_digits n _ h) rfl

theorem splitOnChar_of_not_mem {sep : Char} {cs : List Char} (h : sep ∉ cs) :
    splitOnChar sep cs = [cs] := by
  induction cs with
  | nil => rfl
  | cons c cs ih =>
    have hc : c ≠ sep := fun hx => h (hx ▸ List.mem_cons_self c cs)
    have hcs : sep ∉ cs := fun hx => h (List.mem_cons_of_mem c hx)
    unfold splitOnChar
    rw [if_neg (fun hx => hc hx), ih hcs]

theorem splitOnChar_append_sep {sep : Char} {xs ys : List Char} (hx : sep ∉ xs) :
    splitOnChar sep (xs ++ sep :: ys) = xs :: splitOnChar sep ys := by
  induction xs with
  | nil => simp [splitOnChar]
  | cons c cs ih =>
    have hc : c ≠ sep := fun hx2 => hx (hx2 ▸ List.mem_cons_self c cs)
    have hcs : sep ∉ cs := fun hx2 => hx (List.mem_cons_of_mem c hx2)
    simp only [List.cons_append]
    conv_lhs => unfold splitOnChar
    rw [if_neg (fun hx2 => hc hx2), ih hcs]
end PyStr

namespace Viewer3

open PyStr

theorem tryRangeSep_of_not_mem {sep : Char} {cs : List Char} (h : sep ∉ cs) :
    tryRangeSep sep cs = none := by
  unfold tryRangeSep
  rw [if_neg h]

theorem get_random_time_range (a b : Nat) (hab : a ≤ b) (r : Nat) :
    get_random_time (TimeSpec.range a b) r = (a : Int) + (r % (b - a + 1) : Nat) := by
  show (if ((a : Int)) = ((b : Int)) then ((a : Int)) else randintModel a b r) = _
  by_cases h : a = b
  · subst h
    simp
  · have hib : ¬ ((a : Int) = (b : Int)) := by exact_mod_cast h
    rw [if_neg hib]
    unfold randintModel
    have ht : ((b : Int) - (a : Int) + 1).toNat = b - a + 1 := by omega
    rw [ht]

theorem parse_time_input_natToChars (t : Nat) (d : Int) :
    parse_time_input (natToChars t) d = Except.ok (TimeSpec.fixed (t : Int)) := by
  unfold parse_time_input
  rw [if_neg (by simpa using natToChars_ne_nil t)]
  rw [tryRangeSep_of_not_mem (natToChars_not_mem_dash t)]
  rw [tryRangeSep_of_not_mem (natToChars_not_mem_colon t)]
  rw [parseInt?_natToChars t]
  simp

theorem tryRangeSep_eq_of_split {sep : Char} {cs p1 p2 : List Char} (hmem : sep ∈ cs)
    (hsplit : splitOnChar sep cs = [p1, p2]) :
    tryRangeSep sep cs =
      some (match parseInt? (stripChars p1), parseInt? (stripChars p2) with
        | some mn, some mx =>
          if mn < 0 then Except.error "min time must be nonnegative"
          else if mx < mn then Except.error "max time must be at least min time"
          else Except.ok (TimeSpec.range mn mx)
        | _, _ => Except.error "invalid interval format") := by
  unfold tryRangeSep
  rw [if_pos hmem, hsplit]

theorem parse_time_input_range (a b : Nat) (hab : a ≤ b) (d : Int) :
    parse_time_input (natToChars a ++ '-' :: natToChars b) d =
      Except.ok (TimeSpec.range (a : Int) (b : Int)) := by
  have hsplit : splitOnChar '-' (natToChars a ++ '-' :: natToChars b) =
      [natToChars a, natToChars b] := by
    rw [splitOnChar_append_sep (natToChars_not_mem_dash a),
      splitOnChar_of_not_mem (natToChars_not_mem_dash b)]
  have hmem : '-' ∈ natToChars a ++ '-' :: natToChars b := by simp
  have htr := tryRangeSep_eq_of_split hmem hsplit
  rw [stripChars_eq_self_of_digits (natToChars_all_digits a),
    stripChars_eq_self_of_digits (natToChars_all_digits b),
    parseInt?_natToChars a, parseInt?_natToChars b] at htr
  unfold parse_time_input
  rw [if_neg (by simp [natToChars_ne_nil a]), htr]
  have h1 : ¬ ((a : Int) < 0) := by omega
  have h2 : ¬ ((b : Int) < (a : Int)) := by exact_mod_cast Nat.not_lt.mpr hab
  simp [h1, h2]

/-- Claim C7: a fixed watch-time input `"t"` parses to the fixed spec `t` and
every sampled duration equals `t` exactly; a range input `"a-b"` with
`0 ≤ a ≤ b` parses to the interval spec `(a, b)`, every sampled duration lies
in `[a, b]` inclusive, and the draw is uniform: the sampler restricted to the
`b - a + 1` seed residues is a bijection onto `[a, b]`. -/
theorem C7_watch_time_spec (t a b : Nat) (d : Int) (r : Nat) (hab : a ≤ b) :
    parse_time_input (natToChars t) d = Except.ok (TimeSpec.fixed (t : Int))
    ∧ get_random_time (TimeSpec.fixed (t : Int)) r = (t : Int)
    ∧ parse_time_input (natToChars a ++ '-' :: natToChars b) d =
        Except.ok (TimeSpec.range (a : Int) (b : Int))
    ∧ (a : Int) ≤ get_random_time (TimeSpec.range (a : Int) (b : Int)) r
    ∧ get_random_time (TimeSpec.range (a : Int) (b : Int)) r ≤ (b : Int)
    ∧ (∀ k : Int, (a : Int) ≤ k → k ≤ (b : Int) →
        ∃ r0 : Nat, r0 ≤ b - a ∧ get_random_time (TimeSpec.range (a : Int) (b : Int)) r0 = k)
    ∧ (∀ r1 r2 : Nat, r1 ≤ b - a → r2 ≤ b - a →
        get_random_time (TimeSpec.range (a : Int) (b : Int)) r1 =
          get_random_time (TimeSpec.range (a : Int) (b : Int)) r2 → r1 = r2) := by
  have hn : 0 < b - a + 1 := Nat.succ_pos _
  refine ⟨parse_time_input_natToChars t d, rfl, parse_time_input_range a b hab d, ?_, ?_, ?_, ?_⟩
  · rw [get_random_time_range a b hab r]
    have := Nat.mod_lt r hn
    omega
  · rw [get_random_time_range a b hab r]
    have := Nat.mod_lt r hn
    omega
  · intro k hk1 hk2
    refine ⟨(k - (a : Int)).toNat, by omega, ?_⟩
    rw [get_random_time_range a b hab]
    have hlt : (k - (a : Int)).toNat < b - a + 1 := by omega
    rw [Nat.mod_eq_of_lt hlt]
    omega
  · intro r1 r2 h1 h2 heq
    rw [get_random_time_range a b hab, get_random_time_range a b hab] at heq
    have heq2 : r1 % (b - a + 1) = r2 % (b - a + 1) := by omega
    rw [Nat.mod_eq_of_lt (by omega), Nat.mod_eq_of_lt (by omega)] at heq2
    exact heq2

/-- Witness for C7 at the spec's own example: input `"10"` parses to fixed 10,
input `"10-20"` parses to the interval `(10, 20)`, and a sample lies in range. -/
theorem C7_watch_time_spec_witness :
    parse_time_input (natToChars 10) 30 = Except.ok (TimeSpec.fixed 10)
    ∧ parse_time_input (natToChars 10 ++ '-' :: natToChars 20) 30 =
        Except.ok (TimeSpec.range 10 20)
    ∧ (10 : Int) ≤ get_random_time (TimeSpec.range 10 20) 7
    ∧ get_random_time (TimeSpec.range 10 20) 7 ≤ 20 := by
  have h := C7_watch_time_spec 10 10 20 30 7 (by decide)
  exact ⟨h.1, h.2.2.1, h.2.2.2.1, h.2.2.2.2.1⟩
end Viewer3


/-- Claim C3: evicting `A` from a working pool `{A, B}` with no failures yields
working `{B}`, failed `{A}`; and in general eviction never adds or removes any
other address from either list. -/
theorem C3_proxy_failure_eviction (A B : List Char) (_hAB : A ≠ B) :
    RutubePro.mark_proxy_failed ⟨[A, B], []⟩ A = ⟨[B], [A]⟩
    ∧ (∀ (s : RutubePro.PoolState) (p q : List Char), q ≠ p →
        (q ∈ (RutubePro.mark_proxy_failed s p).working_proxies ↔ q ∈ s.working_proxies))
    ∧ (∀ (s : RutubePro.PoolState) (p q : List Char), q ≠ p →
        (q ∈ (RutubePro.mark_proxy_failed s p).failed_proxies ↔ q ∈ s.failed_proxies)) := by
  refine ⟨?_, ?_, ?_⟩
  · unfold RutubePro.mark_proxy_failed
    rw [if_pos (by simp)]
    simp [List.erase_cons_head]
  · intro s p q hq
    unfold RutubePro.mark_proxy_failed
    by_cases hp : p ∈ s.working_proxies
    · rw [if_pos hp]
      exact List.mem_erase_of_ne hq
    · rw [if_neg hp]
  · intro s p q hq
    unfold RutubePro.mark_proxy_failed
    by_cases hp : p ∈ s.working_proxies
    · rw [if_pos hp]
      simp [hq]
    · rw [if_neg hp]

/-- Witness for C3 on concrete addresses. -/
theorem C3_proxy_failure_eviction_witness :
    RutubePro.mark_proxy_failed ⟨["1.1.1.1:80".data, "2.2.2.2:80".data], []⟩ "1.1.1.1:80".data
      = ⟨["2.2.2.2:80".data], ["1.1.1.1:80".data]⟩ :=
  (C3_proxy_failure_eviction "1.1.1.1:80".data "2.2.2.2:80".data (by decide)).1

/-- Counterexample to Claim C4 as stated: over a pool state whose working list
holds the same address twice (reachable, e.g., by loading a `--proxy-file`
with a repeated line, which `manage_proxies_only` does not deduplicate),
`mark_proxy_failed` removes only the first occurrence, so a second call
removes the second occurrence and appends to the failed list again. -/
theorem C4_eviction_not_idempotent :
    RutubePro.mark_proxy_failed
        (RutubePro.mark_proxy_failed ⟨[['a'], ['a']], []⟩ ['a']) ['a'] ≠
      RutubePro.mark_proxy_failed ⟨[['a'], ['a']], []⟩ ['a'] := by
  decide

/-- Claim C4 (amended): for every pool state whose working list is free of
duplicate entries — which holds for every pool produced by fetch/validate,
since candidates are deduplicated — evicting the same address twice leaves the
pool exactly as evicting it once, and evicting an address not in the working
list is a no-op, not an error. -/
theorem C4_eviction_idempotent_deduped (s : RutubePro.PoolState) (p : List Char)
    (h : s.working_proxies.Nodup) :
    RutubePro.mark_proxy_failed (RutubePro.mark_proxy_failed s p) p =
        RutubePro.mark_proxy_failed s p
    ∧ (p ∉ s.working_proxies → RutubePro.mark_proxy_failed s p = s) := by
  constructor
  · by_cases hp : p ∈ s.working_proxies
    · have h1 : RutubePro.mark_proxy_failed s p =
          ⟨s.working_proxies.erase p, s.failed_proxies ++ [p]⟩ := by
        unfold RutubePro.mark_proxy_failed
        rw [if_pos hp]
      rw [h1]
      unfold RutubePro.mark_proxy_failed
      rw [if_neg]
      intro hmem
      exact (h.mem_erase_iff.mp hmem).1 rfl
    · have h1 : RutubePro.mark_proxy_failed s p = s := by
        unfold RutubePro.mark_proxy_failed
        rw [if_neg hp]
      rw [h1, h1]
  · intro hp
    unfold RutubePro.mark_proxy_failed
    rw [if_neg hp]

/-- Witness for the amended C4 on a concrete duplicate-free pool. -/
theorem C4_eviction_idempotent_deduped_witness :
    RutubePro.mark_proxy_failed
        (RutubePro.mark_proxy_failed ⟨[['a'], ['b']], []⟩ ['a']) ['a'] =
      RutubePro.mark_proxy_failed ⟨[['a'], ['b']], []⟩ ['a'] :=
  (C4_eviction_idempotent_deduped ⟨[['a'], ['b']], []⟩ ['a'] (by decide)).1
namespace ProxyViewer

theorem gatherResults_append (rs1 rs2 : List (Option (List (List Char)))) :
    gatherResults (rs1 ++ rs2) =
      rs1.foldr
        (fun r acc =>
          match r with
          | some l => if l.isEmpty then acc else l ++ acc
          | none => acc)
        (gatherResults rs2) := by
  unfold gatherResults
  rw [List.foldr_append]
end ProxyViewer


/-- Claim C2 (as the code-base intends it, and as `Proxy/rutube_viewer_proxy.py`
implements it): a bad source — one whose fetch raises, is malformed or
missing, or answers with a non-200 status — contributes nothing, and the fetch
returns exactly what the remaining sources produce.  The companion conjuncts
exhibit the slip in `rutube_pro.py`: there a single non-200 response makes
`fetch_source` return `None` and `all_proxies.extend(None)` raises
`TypeError`, aborting the whole fetch even when other sources succeeded. -/
theorem C2_bad_source_tolerance :
    (∀ (m : Nat) (xs ys : List ProxyViewer.PvSource) (bad : ProxyViewer.PvSource),
        (ProxyViewer.fetch_source bad = none ∨ ProxyViewer.fetch_source bad = some []) →
        ProxyViewer.fetch_proxies m (xs ++ bad :: ys) = ProxyViewer.fetch_proxies m (xs ++ ys))
    ∧ RutubePro.fetch_proxies 50 [RutubePro.ProSource.ok 404 []] =
        Except.error RutubePro.PyError.typeError
    ∧ RutubePro.fetch_proxies 50
        [RutubePro.ProSource.ok 200 "1.2.3.4:80".data, RutubePro.ProSource.ok 404 []] =
        Except.error RutubePro.PyError.typeError := by
  refine ⟨?_, rfl, rfl⟩
  intro m xs ys bad hbad
  unfold ProxyViewer.fetch_proxies
  rw [List.map_append, List.map_cons, List.map_append]
  rw [ProxyViewer.gatherResults_append, ProxyViewer.gatherResults_append]
  have hmid : ProxyViewer.gatherResults (ProxyViewer.fetch_source bad :: ys.map ProxyViewer.fetch_source) =
      ProxyViewer.gatherResults (ys.map ProxyViewer.fetch_source) := by
    unfold ProxyViewer.gatherResults
    rw [List.foldr_cons]
    rcases hbad with h | h
    · rw [h]
    · rw [h]
      rfl
  rw [hmid]

/-- Witness for C2: a dead HTTP source inserted between two outcomes changes
nothing in the Proxy/ variant's fetch result. -/
theorem C2_bad_source_tolerance_witness :
    ProxyViewer.fetch_proxies 50
        ([ProxyViewer.PvSource.fileFound "1.2.3.4:80".data] ++
          ProxyViewer.PvSource.http 500 [] :: [ProxyViewer.PvSource.httpExc]) =
      ProxyViewer.fetch_proxies 50
        ([ProxyViewer.PvSource.fileFound "1.2.3.4:80".data] ++ [ProxyViewer.PvSource.httpExc]) :=
  C2_bad_source_tolerance.1 50 [ProxyViewer.PvSource.fileFound "1.2.3.4:80".data]
    [ProxyViewer.PvSource.httpExc] (ProxyViewer.PvSource.http 500 []) (Or.inl (by decide))

/-- Claim C6: whenever either `fetch_proxies` variant returns a candidate
list, that list has no duplicate addresses and its length is at most the
configured `max_proxies` (default 50). -/
theorem C6_dedup_and_size_bound :
    (∀ (m : Nat) (outs : List RutubePro.ProSource) (l : List (List Char)),
        RutubePro.fetch_proxies m outs = Except.ok l → l.Nodup ∧ l.length ≤ m)
    ∧ (∀ (m : Nat) (outs : List ProxyViewer.PvSource),
        (ProxyViewer.fetch_proxies m outs).Nodup ∧
          (ProxyViewer.fetch_proxies m outs).length ≤ m) := by
  constructor
  · intro m outs l h
    unfold RutubePro.fetch_proxies at h
    cases hx : extendAll (outs.map RutubePro.fetch_source) with
    | none => rw [hx] at h; exact absurd h (by simp)
    | some all =>
      rw [hx] at h
      have hl : l = all.dedup.take m := by
        simp at h
        exact h.symm
      subst hl
      exact ⟨(List.take_sublist m all.dedup).nodup (List.nodup_dedup all),
        by simp⟩
  · intro m outs
    unfold ProxyViewer.fetch_proxies
    exact ⟨(List.take_sublist m _).nodup (List.nodup_dedup _), by simp⟩

/-- Witness for C6 on a concrete fetch whose single source returns the same
address twice. -/
theorem C6_dedup_and_size_bound_witness :
    (["1.2.3.4:80".data, "1.2.3.4:80".data].dedup.take 50).Nodup ∧
      (["1.2.3.4:80".data, "1.2.3.4:80".data].dedup.take 50).length ≤ 50 :=
  C6_dedup_and_size_bound.1 50
    [RutubePro.ProSource.ok 200 "1.2.3.4:80\n1.2.3.4:80".data]
    (["1.2.3.4:80".data, "1.2.3.4:80".data].dedup.take 50) rfl
namespace ProxyViewer

theorem test_proxy_fst {rs : List ProbeRes} {p : List Char}
    {v : List Char × Option (List Char)} (h : test_proxy rs p = some v) : v.1 = p := by
  induction rs with
  | nil => simp [test_proxy] at h
  | cons r rest ih =>
    unfold test_proxy at h
    cases hr : probeHit r with
    | some ip => rw [hr] at h; cases h; rfl
    | none => rw [hr] at h; exact ih h

theorem test_proxy_isSome_iff (rs : List ProbeRes) (p : List Char) :
    (test_proxy rs p).isSome = true ↔ ∃ r ∈ rs, (probeHit r).isSome = true := by
  induction rs with
  | nil => simp [test_proxy]
  | cons r rest ih =>
    unfold test_proxy
    cases hr : probeHit r with
    | some ip => simp [hr]
    | none => simp [hr, ih]
end ProxyViewer

namespace RutubePro

theorem test_proxy_pro_fst {rs : List ProProbe} {p : List Char} {v : TestResult}
    (h : test_proxy rs p = some v) : v.proxy = p := by
  induction rs with
  | nil => simp [test_proxy] at h
  | cons r rest ih =>
    cases r with
    | okIp ip rt => unfold test_proxy at h; cases h; rfl
    | exc => unfold test_proxy at h; exact ih h
    | badStatus => unfold test_proxy at h; exact ih h
    | okNoIp => unfold test_proxy at h; exact ih h

theorem test_proxy_pro_isSome_iff (rs : List ProProbe) (p : List Char) :
    (test_proxy rs p).isSome = true ↔ ∃ r ∈ rs, probeWorks r = true := by
  induction rs with
  | nil => simp [test_proxy]
  | cons r rest ih =>
    cases r with
    | okIp ip rt => simp [test_proxy, probeWorks]
    | exc => simpa [test_proxy, probeWorks] using ih
    | badStatus => simpa [test_proxy, probeWorks] using ih
    | okNoIp => simpa [test_proxy, probeWorks] using ih

theorem validate_proxies_mem_iff (env : List Char → List ProProbe)
    (proxies : List (List Char)) (x : List Char) :
    x ∈ validate_proxies env proxies ↔
      x ∈ proxies ∧ ∃ r ∈ env x, probeWorks r = true := by
  unfold validate_proxies
  rw [(List.perm_insertionSort _ _).map TestResult.proxy |>.mem_iff]
  constructor
  · intro h
    obtain ⟨t, ht, hteq⟩ := List.mem_map.mp h
    obtain ⟨o, ho, hoo⟩ := List.mem_filterMap.mp ht
    obtain ⟨p, hp, hpo⟩ := List.mem_map.mp ho
    cases o with
    | none => simp at hoo
    | some t2 =>
      have ht2 : t2 = t := by simpa using hoo
      rw [ht2] at hpo
      have hfst : TestResult.proxy t = p := test_proxy_pro_fst hpo
      have hxp : x = p := by rw [← hteq, hfst]
      subst hxp
      refine ⟨hp, ?_⟩
      rw [← test_proxy_pro_isSome_iff (env x) x, hpo]
      rfl
  · rintro ⟨hx, hr⟩
    have hsome : (test_proxy (env x) x).isSome = true :=
      (test_proxy_pro_isSome_iff (env x) x).mpr hr
    obtain ⟨t, ht⟩ := Option.isSome_iff_exists.mp hsome
    refine List.mem_map.mpr ⟨t, ?_, test_proxy_pro_fst ht⟩
    exact List.mem_filterMap.mpr ⟨some t, List.mem_map.mpr ⟨x, hx, ht⟩, rfl⟩

theorem validate_proxies_pv_mem_iff (env : List Char → List ProxyViewer.ProbeRes)
    (proxies : List (List Char)) (x : List Char) :
    x ∈ ProxyViewer.validate_proxies env proxies ↔
      x ∈ proxies ∧ ∃ r ∈ env x, (ProxyViewer.probeHit r).isSome = true := by
  unfold ProxyViewer.validate_proxies
  constructor
  · intro h
    obtain ⟨p, hp, hpo⟩ := List.mem_filterMap.mp h
    cases hv : ProxyViewer.test_proxy (env p) p with
    | none => rw [hv] at hpo; simp at hpo
    | some v =>
      rw [hv] at hpo
      have hx : x = p := by
        have := ProxyViewer.test_proxy_fst hv
        simp at hpo
        rw [← hpo, this]
      subst hx
      refine ⟨hp, ?_⟩
      rw [← ProxyViewer.test_proxy_isSome_iff (env x) x, hv]
      rfl
  · rintro ⟨hx, hr⟩
    have hsome : (ProxyViewer.test_proxy (env x) x).isSome = true :=
      (ProxyViewer.test_proxy_isSome_iff (env x) x).mpr hr
    obtain ⟨v, hv⟩ := Option.isSome_iff_exists.mp hsome
    refine List.mem_filterMap.mpr ⟨x, hx, ?_⟩
    rw [hv]
    simp [ProxyViewer.test_proxy_fst hv]
end RutubePro


/-- Claim C5: in both variants, the working set returned by validation is a
subset of the input candidates, and a candidate is classified working exactly
when at least one test endpoint answers with a success status and a body
yielding an ip — success against a single endpoint suffices. -/
theorem C5_validation_subset_and_classification :
    (∀ (env : List Char → List ProxyViewer.ProbeRes) (proxies : List (List Char))
        (x : List Char), x ∈ ProxyViewer.validate_proxies env proxies → x ∈ proxies)
    ∧ (∀ (env : List Char → List ProxyViewer.ProbeRes) (proxies : List (List Char))
        (x : List Char),
        x ∈ ProxyViewer.validate_proxies env proxies ↔
          x ∈ proxies ∧ ∃ r ∈ env x, (ProxyViewer.probeHit r).isSome = true)
    ∧ (∀ (env : List Char → List RutubePro.ProProbe) (proxies : List (List Char))
        (x : List Char),
        x ∈ RutubePro.validate_proxies env proxies ↔
          x ∈ proxies ∧ ∃ r ∈ env x, RutubePro.probeWorks r = true) :=
  ⟨fun env proxies x h =>
      ((RutubePro.validate_proxies_pv_mem_iff env proxies x).mp h).1,
    RutubePro.validate_proxies_pv_mem_iff,
    RutubePro.validate_proxies_mem_iff⟩

/-- Witness for C5: a candidate that succeeds against only the second of two
endpoints is classified working, in both variants. -/
theorem C5_validation_subset_and_classification_witness :
    "1.1.1.1:80".data ∈ ProxyViewer.validate_proxies
        (fun _ => [ProxyViewer.ProbeRes.badStatus, ProxyViewer.ProbeRes.textMentionsIp])
        ["1.1.1.1:80".data]
    ∧ "1.1.1.1:80".data ∈ RutubePro.validate_proxies
        (fun _ => [RutubePro.ProProbe.exc, RutubePro.ProProbe.okIp "9.9.9.9".data 3])
        ["1.1.1.1:80".data] :=
  ⟨(C5_validation_subset_and_classification.2.1 _ _ _).mpr
      ⟨by decide, ProxyViewer.ProbeRes.textMentionsIp, by decide, rfl⟩,
    (C5_validation_subset_and_classification.2.2 _ _ _).mpr
      ⟨by decide, RutubePro.ProProbe.okIp "9.9.9.9".data 3, by decide, rfl⟩⟩
namespace ViewerCycles

theorem process_videos_go_spec (attempt : List Char → AttemptOutcome) (wt : Nat)
    (h : ∀ u, attempt u ≠ AttemptOutcome.interrupt) :
    ∀ (urls : List (List Char)) (s : ViewerStats),
      (process_videos_go attempt wt urls s).2 = false
      ∧ (process_videos_go attempt wt urls s).1.successful_views =
          s.successful_views + (urls.filter (recordedSuccess attempt)).length
      ∧ (process_videos_go attempt wt urls s).1.failed_views +
            (urls.filter (recordedSuccess attempt)).length =
          s.failed_views + urls.length
      ∧ (process_videos_go attempt wt urls s).1.cycles_completed = s.cycles_completed := by
  intro urls
  induction urls with
  | nil => intro s; exact ⟨rfl, by simp [process_videos_go], by simp [process_videos_go], rfl⟩
  | cons u rest ih =>
    intro s
    by_cases hu : isRutubeUrl u = false
    · have hrec : recordedSuccess attempt u = false := by
        simp [recordedSuccess, hu]
      have hfc : List.filter (recordedSuccess attempt) (u :: rest) =
          List.filter (recordedSuccess attempt) rest := by
        simp [List.filter_cons, hrec]
      have hgo : process_videos_go attempt wt (u :: rest) s =
          process_videos_go attempt wt rest { s with failed_views := s.failed_views + 1 } := by
        conv_lhs => unfold process_videos_go
        rw [if_pos hu]
      obtain ⟨h1, h2, h3, h4⟩ := ih { s with failed_views := s.failed_views + 1 }
      rw [hgo, hfc]
      refine ⟨h1, by simpa using h2, ?_, h4⟩
      simp only [List.length_cons]
      simp at h3
      omega
    · rw [Bool.not_eq_false] at hu
      cases ha : attempt u with
      | interrupt => exact absurd ha (h u)
      | completes =>
        have hrec : recordedSuccess attempt u = true := by
          simp [recordedSuccess, hu, ha]
        have hfc : List.filter (recordedSuccess attempt) (u :: rest) =
            u :: List.filter (recordedSuccess attempt) rest := by
          simp [List.filter_cons, hrec]
        have hgo : process_videos_go attempt wt (u :: rest) s =
            process_videos_go attempt wt rest
              { s with
                videos_history :=
                  s.videos_history ++ [⟨u, wt, true, s.cycles_completed + 1⟩],
                successful_views := s.successful_views + 1,
                total_watch_time := s.total_watch_time + wt } := by
          conv_lhs => unfold process_videos_go
          rw [if_neg (by simp [hu]), ha]
          rfl
        obtain ⟨h1, h2, h3, h4⟩ := ih
          { s with
            videos_history := s.videos_history ++ [⟨u, wt, true, s.cycles_completed + 1⟩],
            successful_views := s.successful_views + 1,
            total_watch_time := s.total_watch_time + wt }
        rw [hgo, hfc]
        refine ⟨h1, ?_, ?_, h4⟩
        · simp only [List.length_cons]
          simp at h2
          omega
        · simp only [List.length_cons]
          simp at h3
          omega
      | timesOut =>
        have hrec : recordedSuccess attempt u = false := by
          simp [recordedSuccess, hu, ha]
        have hfc : List.filter (recordedSuccess attempt) (u :: rest) =
            List.filter (recordedSuccess attempt) rest := by
          simp [List.filter_cons, hrec]
        have hgo : process_videos_go attempt wt (u :: rest) s =
            process_videos_go attempt wt rest
              { s with
                videos_history :=
                  s.videos_history ++ [⟨u, wt, false, s.cycles_completed + 1⟩],
                failed_views := s.failed_views + 1 } := by
          conv_lhs => unfold process_videos_go
          rw [if_neg (by simp [hu]), ha]
          rfl
        obtain ⟨h1, h2, h3, h4⟩ := ih
          { s with
            videos_history := s.videos_history ++ [⟨u, wt, false, s.cycles_completed + 1⟩],
            failed_views := s.failed_views + 1 }
        rw [hgo, hfc]
        refine ⟨h1, by simpa using h2, ?_, h4⟩
        simp only [List.length_cons]
        simp at h3
        omega
      | fails =>
        have hrec : recordedSuccess attempt u = false := by
          simp [recordedSuccess, hu, ha]
        have hfc : List.filter (recordedSuccess attempt) (u :: rest) =
            List.filter (recordedSuccess attempt) rest := by
          simp [List.filter_cons, hrec]
        have hgo : process_videos_go attempt wt (u :: rest) s =
            process_videos_go attempt wt rest
              { s with
                videos_history :=
                  s.videos_history ++ [⟨u, wt, false, s.cycles_completed + 1⟩],
                failed_views := s.failed_views + 1 } := by
          conv_lhs => unfold process_videos_go
          rw [if_neg (by simp [hu]), ha]
          rfl
        obtain ⟨h1, h2, h3, h4⟩ := ih
          { s with
            videos_history := s.videos_history ++ [⟨u, wt, false, s.cycles_completed + 1⟩],
            failed_views := s.failed_views + 1 }
        rw [hgo, hfc]
        refine ⟨h1, by simpa using h2, ?_, h4⟩
        simp only [List.length_cons]
        simp at h3
        omega

theorem process_videos_spec (attempt : List Char → AttemptOutcome)
    (perm : List (List Char) → List (List Char)) (urls : List (List Char))
    (wt : Nat) (sh : Bool) (mv : Option Nat) (s : ViewerStats)
    (h : ∀ u, attempt u ≠ AttemptOutcome.interrupt) :
    (process_videos attempt perm urls wt sh mv s).2 = false
    ∧ (process_videos attempt perm urls wt sh mv s).1.successful_views +
          (process_videos attempt perm urls wt sh mv s).1.failed_views =
        s.successful_views + s.failed_views + (effectiveUrls perm sh mv urls).length
    ∧ (process_videos attempt perm urls wt sh mv s).1.successful_views =
        s.successful_views +
          ((effectiveUrls perm sh mv urls).filter (recordedSuccess attempt)).length
    ∧ (process_videos attempt perm urls wt sh mv s).1.cycles_completed =
        s.cycles_completed := by
  obtain ⟨h1, h2, h3, h4⟩ := process_videos_go_spec attempt wt h
    (effectiveUrls perm sh mv urls)
    { s with total_videos := s.total_videos + (effectiveUrls perm sh mv urls).length }
  unfold process_videos
  exact ⟨h1, by simp at h2 h3; omega, by simpa using h2, h4⟩
end ViewerCycles


/-- Claim C8: with no user interrupt, every per-video failure inside a cycle —
timeout, element not found, navigation error, any exception caught inside
`watch_video`, or a non-RuTube URL — is recorded as a failed outcome and the
loop continues to the very end: `process_videos` returns normally (no
exception escapes), records exactly one outcome per processed URL, and counts
as successes exactly the RuTube URLs whose watch completed.  Conversely a user
interrupt on the first video does escape the loop. -/
theorem C8_per_video_error_containment
    (attempt : List Char → ViewerCycles.AttemptOutcome)
    (perm : List (List Char) → List (List Char)) (urls : List (List Char))
    (wt : Nat) (sh : Bool) (mv : Option Nat) (s : ViewerCycles.ViewerStats)
    (h : ∀ u, attempt u ≠ ViewerCycles.AttemptOutcome.interrupt) :
    (ViewerCycles.process_videos attempt perm urls wt sh mv s).2 = false
    ∧ (ViewerCycles.process_videos attempt perm urls wt sh mv s).1.successful_views +
          (ViewerCycles.process_videos attempt perm urls wt sh mv s).1.failed_views =
        s.successful_views + s.failed_views +
          (ViewerCycles.effectiveUrls perm sh mv urls).length
    ∧ (ViewerCycles.process_videos attempt perm urls wt sh mv s).1.successful_views =
        s.successful_views +
          ((ViewerCycles.effectiveUrls perm sh mv urls).filter
            (ViewerCycles.recordedSuccess attempt)).length
    ∧ (∀ (attempt2 : List Char → ViewerCycles.AttemptOutcome) (u : List Char)
          (rest : List (List Char)) (s2 : ViewerCycles.ViewerStats),
        ViewerCycles.isRutubeUrl u = true →
        attempt2 u = ViewerCycles.AttemptOutcome.interrupt →
        (ViewerCycles.process_videos_go attempt2 wt (u :: rest) s2).2 = true) := by
  obtain ⟨h1, h2, h3, _⟩ := ViewerCycles.process_videos_spec attempt perm urls wt sh mv s h
  refine ⟨h1, h2, h3, ?_⟩
  intro attempt2 u rest s2 hu ha
  conv_lhs => unfold ViewerCycles.process_videos_go
  rw [if_neg (by simp [hu]), ha]
  rfl
namespace ViewerCycles

theorem run_cycles_go_succ (env : CycleEnv) (urls : List (List Char)) (wt : Nat)
    (sh : Bool) (mv : Option Nat) (cycles : Int) (c : Nat) (s : ViewerStats) (fuel : Nat) :
    run_cycles_go env urls wt sh mv cycles c s (fuel + 1) =
      (if (process_videos (env.attempt (c + 1)) (env.perm (c + 1)) urls wt sh mv
            { s with cycles_completed := s.cycles_completed + 1 }).2 then
        (RunOutcome.interrupted,
          (process_videos (env.attempt (c + 1)) (env.perm (c + 1)) urls wt sh mv
            { s with cycles_completed := s.cycles_completed + 1 }).1)
      else if 0 < cycles ∧ cycles ≤ ((c + 1 : Nat) : Int) then
        (RunOutcome.finished,
          (process_videos (env.attempt (c + 1)) (env.perm (c + 1)) urls wt sh mv
            { s with cycles_completed := s.cycles_completed + 1 }).1)
      else if cycles = 0 ∨ ((c + 1 : Nat) : Int) < cycles then
        if env.driverOk (c + 1) then
          run_cycles_go env urls wt sh mv cycles (c + 1)
            (process_videos (env.attempt (c + 1)) (env.perm (c + 1)) urls wt sh mv
              { s with cycles_completed := s.cycles_completed + 1 }).1 fuel
        else (RunOutcome.driverFail,
          (process_videos (env.attempt (c + 1)) (env.perm (c + 1)) urls wt sh mv
            { s with cycles_completed := s.cycles_completed + 1 }).1)
      else
        run_cycles_go env urls wt sh mv cycles (c + 1)
          (process_videos (env.attempt (c + 1)) (env.perm (c + 1)) urls wt sh mv
            { s with cycles_completed := s.cycles_completed + 1 }).1 fuel) := by
  conv_lhs => unfold run_cycles_go

theorem run_cycles_go_finished (env : CycleEnv) (urls : List (List Char)) (wt : Nat)
    (sh : Bool) (mv : Option Nat) (N : Nat) (hN : 0 < N)
    (hatt : ∀ c u, env.attempt c u ≠ AttemptOutcome.interrupt)
    (hdrv : ∀ c, env.driverOk c = true) :
    ∀ (fuel c : Nat) (s : ViewerStats), c < N → N - c ≤ fuel →
      (run_cycles_go env urls wt sh mv (N : Int) c s fuel).1 = RunOutcome.finished
      ∧ (run_cycles_go env urls wt sh mv (N : Int) c s fuel).2.cycles_completed =
          s.cycles_completed + (N - c) := by
  intro fuel
  induction fuel with
  | zero => intro c s hc hf; exact absurd hf (by omega)
  | succ fuel ih =>
    intro c s hc hf
    obtain ⟨hintr, _, _, hcyc⟩ := process_videos_spec (env.attempt (c + 1))
      (env.perm (c + 1)) urls wt sh mv { s with cycles_completed := s.cycles_completed + 1 }
      (hatt (c + 1))
    simp only at hcyc
    have hres := run_cycles_go_succ env urls wt sh mv (N : Int) c s fuel
    set P : ViewerStats × Bool := process_videos (env.attempt (c + 1)) (env.perm (c + 1))
      urls wt sh mv { s with cycles_completed := s.cycles_completed + 1 } with hP
    rw [hintr] at hres
    by_cases hcN : N ≤ c + 1
    · have hcond : 0 < (N : Int) ∧ (N : Int) ≤ ((c + 1 : Nat) : Int) :=
        ⟨by exact_mod_cast hN, by exact_mod_cast hcN⟩
      rw [if_pos hcond] at hres
      have hres2 : run_cycles_go env urls wt sh mv (N : Int) c s (fuel + 1) =
          (RunOutcome.finished, P.1) := by
        simp [hres]
      rw [hres2]
      refine ⟨rfl, ?_⟩
      show P.1.cycles_completed = s.cycles_completed + (N - c)
      rw [hcyc]
      omega
    · have hcond : ¬ (0 < (N : Int) ∧ (N : Int) ≤ ((c + 1 : Nat) : Int)) := by
        push_cast
        omega
      have hcond2 : (N : Int) = 0 ∨ ((c + 1 : Nat) : Int) < (N : Int) := by
        push_cast
        omega
      rw [if_neg hcond, if_pos hcond2, if_pos (hdrv (c + 1))] at hres
      have hres2 : run_cycles_go env urls wt sh mv (N : Int) c s (fuel + 1) =
          run_cycles_go env urls wt sh mv (N : Int) (c + 1) P.1 fuel := by
        simp [hres]
      rw [hres2]
      obtain ⟨ih1, ih2⟩ := ih (c + 1) P.1 (by omega) (by omega)
      refine ⟨ih1, ?_⟩
      rw [ih2, hcyc]
      omega

theorem run_cycles_go_unbounded (env : CycleEnv) (urls : List (List Char)) (wt : Nat)
    (sh : Bool) (mv : Option Nat)
    (hatt : ∀ c u, env.attempt c u ≠ AttemptOutcome.interrupt)
    (hdrv : ∀ c, env.driverOk c = true) :
    ∀ (fuel c : Nat) (s : ViewerStats),
      (run_cycles_go env urls wt sh mv 0 c s fuel).1 = RunOutcome.fuelOut
      ∧ (run_cycles_go env urls wt sh mv 0 c s fuel).2.cycles_completed =
          s.cycles_completed + fuel := by
  intro fuel
  induction fuel with
  | zero => intro c s; exact ⟨rfl, rfl⟩
  | succ fuel ih =>
    intro c s
    obtain ⟨hintr, _, _, hcyc⟩ := process_videos_spec (env.attempt (c + 1))
      (env.perm (c + 1)) urls wt sh mv { s with cycles_completed := s.cycles_completed + 1 }
      (hatt (c + 1))
    simp only at hcyc
    have hres := run_cycles_go_succ env urls wt sh mv 0 c s fuel
    set P : ViewerStats × Bool := process_videos (env.attempt (c + 1)) (env.perm (c + 1))
      urls wt sh mv { s with cycles_completed := s.cycles_completed + 1 } with hP
    rw [hintr] at hres
    rw [if_neg (by simp), if_pos (Or.inl rfl), if_pos (hdrv (c + 1))] at hres
    have hres2 : run_cycles_go env urls wt sh mv 0 c s (fuel + 1) =
        run_cycles_go env urls wt sh mv 0 (c + 1) P.1 fuel := by
      simp [hres]
    rw [hres2]
    obtain ⟨ih1, ih2⟩ := ih (c + 1) P.1
    refine ⟨ih1, ?_⟩
    rw [ih2, hcyc]
    omega

theorem run_cycles_go_zero_not_finished (env : CycleEnv) (urls : List (List Char))
    (wt : Nat) (sh : Bool) (mv : Option Nat) :
    ∀ (fuel c : Nat) (s : ViewerStats),
      (run_cycles_go env urls wt sh mv 0 c s fuel).1 ≠ RunOutcome.finished := by
  intro fuel
  induction fuel with
  | zero => intro c s; simp [run_cycles_go]
  | succ fuel ih =>
    intro c s
    have hres := run_cycles_go_succ env urls wt sh mv 0 c s fuel
    set P : ViewerStats × Bool := process_videos (env.attempt (c + 1)) (env.perm (c + 1))
      urls wt sh mv { s with cycles_completed := s.cycles_completed + 1 } with hP
    by_cases hintr : P.2 = true
    · rw [hintr, if_pos rfl] at hres
      rw [hres]
      simp
    · rw [Bool.not_eq_true] at hintr
      rw [hintr] at hres
      rw [if_neg (by simp), if_pos (Or.inl rfl)] at hres
      by_cases hdr : env.driverOk (c + 1) = true
      · rw [if_pos hdr] at hres
        have hres2 : run_cycles_go env urls wt sh mv 0 c s (fuel + 1) =
            run_cycles_go env urls wt sh mv 0 (c + 1) P.1 fuel := by
          simp [hres]
        rw [hres2]
        exact ih (c + 1) P.1
      · rw [if_neg hdr] at hres
        have hres2 : run_cycles_go env urls wt sh mv 0 c s (fuel + 1) =
            (RunOutcome.driverFail, P.1) := by
          simp [hres]
        rw [hres2]
        simp
end ViewerCycles

namespace RutubePro

theorem run_cycles_async_go_finished (env : ProCycleEnv) (N : Nat) (hN : 0 < N)
    (hcy : ∀ c, (env.runCycleResult c).isSome = true) :
    ∀ (fuel c p : Nat), c < N → N - c ≤ fuel →
      run_cycles_async_go env (N : Int) c p fuel = (RunOutcome.finished, p + (N - c)) := by
  intro fuel
  induction fuel with
  | zero => intro c p hc hf; exact absurd hf (by omega)
  | succ fuel ih =>
    intro c p hc hf
    obtain ⟨b, hb⟩ := Option.isSome_iff_exists.mp (hcy (c + 1))
    conv_lhs => unfold run_cycles_async_go
    rw [hb]
    by_cases hcN : N ≤ c + 1
    · have hcond : 0 < (N : Int) ∧ (N : Int) ≤ ((c + 1 : Nat) : Int) :=
        ⟨by exact_mod_cast hN, by exact_mod_cast hcN⟩
      rw [if_pos hcond]
      have : N - c = 1 := by omega
      rw [this]
    · have hcond : ¬ (0 < (N : Int) ∧ (N : Int) ≤ ((c + 1 : Nat) : Int)) := by
        push_cast
        omega
      rw [if_neg hcond]
      rw [ih (c + 1) (p + 1) (by omega) (by omega)]
      have : p + 1 + (N - (c + 1)) = p + (N - c) := by omega
      rw [this]

theorem run_cycles_async_go_unbounded (env : ProCycleEnv)
    (hcy : ∀ c, (env.runCycleResult c).isSome = true) :
    ∀ (fuel c p : Nat),
      run_cycles_async_go env 0 c p fuel = (RunOutcome.fuelOut, p + fuel) := by
  intro fuel
  induction fuel with
  | zero => intro c p; rfl
  | succ fuel ih =>
    intro c p
    obtain ⟨b, hb⟩ := Option.isSome_iff_exists.mp (hcy (c + 1))
    conv_lhs => unfold run_cycles_async_go
    rw [hb, if_neg (by simp), ih (c + 1) (p + 1)]
    have : p + 1 + fuel = p + (fuel + 1) := by omega
    rw [this]

theorem run_cycles_async_go_zero_not_finished (env : ProCycleEnv) :
    ∀ (fuel c p : Nat),
      (run_cycles_async_go env 0 c p fuel).1 ≠ RunOutcome.finished := by
  intro fuel
  induction fuel with
  | zero => intro c p; simp [run_cycles_async_go]
  | succ fuel ih =>
    intro c p
    conv_lhs => unfold run_cycles_async_go
    cases hb : env.runCycleResult (c + 1) with
    | none => simp
    | some b =>
      rw [if_neg (by simp)]
      exact ih (c + 1) (p + 1)
end RutubePro


/-- Claim C1: under an environment where no user interrupt occurs and the
driver is always recreated successfully, `run_cycles` of
`rutube_viewer_cycles.py` with a positive cycle count `N` executes the
per-cycle video-processing step exactly `N` times and stops normally; with
cycle count `0` it keeps cycling for any amount of fuel, one processing pass
per iteration, and can never terminate normally — only an interrupt, a driver
recreation failure, or exhausted fuel end it.  The same holds for the
`run_cycles_async` loop of `rutube_pro.py` counting completed `run_cycle`
invocations (there even a failing cycle merely logs and continues). -/
theorem C1_cycle_count_semantics :
    (∀ (env : ViewerCycles.CycleEnv) (urls : List (List Char)) (wt : Nat) (sh : Bool)
        (mv : Option Nat) (N fuel : Nat) (s : ViewerCycles.ViewerStats),
      (∀ c u, env.attempt c u ≠ ViewerCycles.AttemptOutcome.interrupt) →
      (∀ c, env.driverOk c = true) → 0 < N → N ≤ fuel →
      (ViewerCycles.run_cycles env urls wt sh mv (N : Int) s fuel).1 = RunOutcome.finished
      ∧ (ViewerCycles.run_cycles env urls wt sh mv (N : Int) s fuel).2.cycles_completed =
          s.cycles_completed + N)
    ∧ (∀ (env : ViewerCycles.CycleEnv) (urls : List (List Char)) (wt : Nat) (sh : Bool)
        (mv : Option Nat) (fuel : Nat) (s : ViewerCycles.ViewerStats),
      (∀ c u, env.attempt c u ≠ ViewerCycles.AttemptOutcome.interrupt) →
      (∀ c, env.driverOk c = true) →
      (ViewerCycles.run_cycles env urls wt sh mv 0 s fuel).1 = RunOutcome.fuelOut
      ∧ (ViewerCycles.run_cycles env urls wt sh mv 0 s fuel).2.cycles_completed =
          s.cycles_completed + fuel)
    ∧ (∀ (env : ViewerCycles.CycleEnv) (urls : List (List Char)) (wt : Nat) (sh : Bool)
        (mv : Option Nat) (fuel : Nat) (s : ViewerCycles.ViewerStats),
      (ViewerCycles.run_cycles env urls wt sh mv 0 s fuel).1 ≠ RunOutcome.finished)
    ∧ (∀ (env : RutubePro.ProCycleEnv) (N fuel : Nat),
      (∀ c, (env.runCycleResult c).isSome = true) → 0 < N → N ≤ fuel →
      RutubePro.run_cycles_async env (N : Int) fuel = (RunOutcome.finished, N))
    ∧ (∀ (env : RutubePro.ProCycleEnv) (fuel : Nat),
      (∀ c, (env.runCycleResult c).isSome = true) →
      RutubePro.run_cycles_async env 0 fuel = (RunOutcome.fuelOut, fuel))
    ∧ (∀ (env : RutubePro.ProCycleEnv) (fuel : Nat),
      (RutubePro.run_cycles_async env 0 fuel).1 ≠ RunOutcome.finished) := by
  refine ⟨?_, ?_, ?_, ?_, ?_, ?_⟩
  · intro env urls wt sh mv N fuel s hatt hdrv hN hfuel
    have h := ViewerCycles.run_cycles_go_finished env urls wt sh mv N hN hatt hdrv
      fuel 0 s (by omega) (by omega)
    simpa [ViewerCycles.run_cycles] using h
  · intro env urls wt sh mv fuel s hatt hdrv
    have h := ViewerCycles.run_cycles_go_unbounded env urls wt sh mv hatt hdrv fuel 0 s
    simpa [ViewerCycles.run_cycles] using h
  · intro env urls wt sh mv fuel s
    exact ViewerCycles.run_cycles_go_zero_not_finished env urls wt sh mv fuel 0 s
  · intro env N fuel hcy hN hfuel
    have h := RutubePro.run_cycles_async_go_finished env N hN hcy fuel 0 0 (by omega) (by omega)
    simpa [RutubePro.run_cycles_async] using h
  · intro env fuel hcy
    have h := RutubePro.run_cycles_async_go_unbounded env hcy fuel 0 0
    simpa [RutubePro.run_cycles_async] using h
  · intro env fuel
    exact RutubePro.run_cycles_async_go_zero_not_finished env fuel 0 0

/-- Claim C9: on every exit path of `process_video` — early-return failure,
recorded success or failure, caught exception, or propagating user
interrupt — the browser client's `close()` is called exactly once. -/
theorem C9_close_called_exactly_once (b : ProxyViewer.VisitBehavior)
    (proxy : Option (List Char)) (s : ProxyViewer.BotStats)
    (cl : ProxyViewer.ClientState) :
    ((ProxyViewer.process_video b proxy s cl).2.2).closeCalls = cl.closeCalls + 1 := by
  rcases b with ⟨o, i, pl, w⟩
  cases o with
  | interrupt => rfl
  | raiseExc => rfl
  | ret ob =>
    cases ob with
    | false => rfl
    | true =>
      cases i with
      | interrupt => rfl
      | raiseExc => rfl
      | ret ib =>
        cases pl with
        | interrupt => rfl
        | raiseExc => rfl
        | ret pb =>
          cases w with
          | interrupt => rfl
          | raiseExc => rfl
          | ret wb => rfl

/-- Claim C10: `process_video` preserves the invariant
`total_visits = successful_visits + failed_visits`: each call bumps
`total_visits` together with exactly one outcome counter, or — when the video
page cannot even be opened, or an interrupt propagates — none of them. -/
theorem C10_stats_counter_invariant (b : ProxyViewer.VisitBehavior)
    (proxy : Option (List Char)) (s : ProxyViewer.BotStats)
    (cl : ProxyViewer.ClientState)
    (h : s.total_visits = s.successful_visits + s.failed_visits) :
    ((ProxyViewer.process_video b proxy s cl).2.1).total_visits =
        ((ProxyViewer.process_video b proxy s cl).2.1).successful_visits +
          ((ProxyViewer.process_video b proxy s cl).2.1).failed_visits
    ∧ (((ProxyViewer.process_video b proxy s cl).2.1).total_visits = s.total_visits + 1
        ∨ (ProxyViewer.process_video b proxy s cl).2.1 = s) := by
  rcases b with ⟨o, i, pl, w⟩
  cases o with
  | interrupt => exact ⟨h, Or.inr rfl⟩
  | raiseExc => exact ⟨by simp [ProxyViewer.process_video]; omega, Or.inl rfl⟩
  | ret ob =>
    cases ob with
    | false => exact ⟨h, Or.inr rfl⟩
    | true =>
      cases i with
      | interrupt => exact ⟨h, Or.inr rfl⟩
      | raiseExc => exact ⟨by simp [ProxyViewer.process_video]; omega, Or.inl rfl⟩
      | ret ib =>
        cases pl with
        | interrupt => exact ⟨h, Or.inr rfl⟩
        | raiseExc => exact ⟨by simp [ProxyViewer.process_video]; omega, Or.inl rfl⟩
        | ret pb =>
          cases w with
          | interrupt => exact ⟨h, Or.inr rfl⟩
          | raiseExc => exact ⟨by simp [ProxyViewer.process_video]; omega, Or.inl rfl⟩
          | ret wb =>
            cases proxy with
            | none =>
              cases wb with
              | false => exact ⟨by simp [ProxyViewer.process_video]; omega, Or.inl rfl⟩
              | true => exact ⟨by simp [ProxyViewer.process_video]; omega, Or.inl rfl⟩
            | some p =>
              cases wb with
              | false => exact ⟨by simp [ProxyViewer.process_video]; omega, Or.inl rfl⟩
              | true => exact ⟨by simp [ProxyViewer.process_video]; omega, Or.inl rfl⟩

/-- Witness for C10 on a concrete successful visit through a proxy. -/
theorem C10_stats_counter_invariant_witness :
    ((ProxyViewer.process_video
        ⟨ProxyViewer.StageRes.ret true, ProxyViewer.StageRes.ret true,
          ProxyViewer.StageRes.ret false, ProxyViewer.StageRes.ret true⟩
        (some "1.1.1.1:80".data) ⟨0, 0, 0, []⟩ ⟨0⟩).2.1).total_visits =
      ((ProxyViewer.process_video
        ⟨ProxyViewer.StageRes.ret true, ProxyViewer.StageRes.ret true,
          ProxyViewer.StageRes.ret false, ProxyViewer.StageRes.ret true⟩
        (some "1.1.1.1:80".data) ⟨0, 0, 0, []⟩ ⟨0⟩).2.1).successful_visits +
        ((ProxyViewer.process_video
          ⟨ProxyViewer.StageRes.ret true, ProxyViewer.StageRes.ret true,
            ProxyViewer.StageRes.ret false, ProxyViewer.StageRes.ret true⟩
          (some "1.1.1.1:80".data) ⟨0, 0, 0, []⟩ ⟨0⟩).2.1).failed_visits :=
  (C10_stats_counter_invariant
    ⟨ProxyViewer.StageRes.ret true, ProxyViewer.StageRes.ret true,
      ProxyViewer.StageRes.ret false, ProxyViewer.StageRes.ret true⟩
    (some "1.1.1.1:80".data) ⟨0, 0, 0, []⟩ ⟨0⟩ rfl).1

/-- Witness for C1: with three cycles requested and enough fuel, both loop
variants stop normally after exactly three per-cycle steps. -/
theorem C1_cycle_count_semantics_witness :
    ((ViewerCycles.run_cycles benignCycleEnv [] 30 false none ((3 : Nat) : Int)
        freshViewerStats 5).1 = RunOutcome.finished
      ∧ (ViewerCycles.run_cycles benignCycleEnv [] 30 false none ((3 : Nat) : Int)
          freshViewerStats 5).2.cycles_completed = freshViewerStats.cycles_completed + 3)
    ∧ RutubePro.run_cycles_async benignProCycleEnv ((3 : Nat) : Int) 5 =
        (RunOutcome.finished, 3) :=
  ⟨C1_cycle_count_semantics.1 benignCycleEnv [] 30 false none 3 5 freshViewerStats
      (fun c u => by simp [benignCycleEnv]) (fun c => rfl) (by decide) (by decide),
    C1_cycle_count_semantics.2.2.2.1 benignProCycleEnv 3 5 (fun c => rfl)
      (by decide) (by decide)⟩

/-- Witness for C8: a two-video cycle whose first video fails returns
normally with one success and one failure recorded. -/
theorem C8_per_video_error_containment_witness :
    (ViewerCycles.process_videos oneFailAttempt (fun l => l)
        ["https://rutube.ru/video/aaa/".data, "https://rutube.ru/video/bbb/".data]
        30 false none freshViewerStats).2 = false
    ∧ (ViewerCycles.process_videos oneFailAttempt (fun l => l)
          ["https://rutube.ru/video/aaa/".data, "https://rutube.ru/video/bbb/".data]
          30 false none freshViewerStats).1.successful_views +
        (ViewerCycles.process_videos oneFailAttempt (fun l => l)
          ["https://rutube.ru/video/aaa/".data, "https://rutube.ru/video/bbb/".data]
          30 false none freshViewerStats).1.failed_views =
      freshViewerStats.successful_views + freshViewerStats.failed_views +
        (ViewerCycles.effectiveUrls (fun l => l) false none
          ["https://rutube.ru/video/aaa/".data, "https://rutube.ru/video/bbb/".data]).length := by
  have h := C8_per_video_error_containment oneFailAttempt (fun l => l)
    ["https://rutube.ru/video/aaa/".data, "https://rutube.ru/video/bbb/".data]
    30 false none freshViewerStats
    (fun u => by
      by_cases hu : u = "https://rutube.ru/video/aaa/".data <;>
        simp [oneFailAttempt, hu])
  exact ⟨h.1, h.2.1⟩
